import Mathlib

/-!
Shallow embedding of the attendance subsystem of `src/bot.js`
(Morrowga/discordbot).

Modelling conventions:
* JS `Date` values are integer milliseconds since the epoch (`Int`);
  `now - start` on two `Date`s in JS yields exactly this difference.
  ISO timestamp strings stored in records are represented by their
  millisecond value (the ISO encoding is injective and `new Date(s)`
  recovers the instant, so this abstraction is lossless).
* JS numbers that carry fractional values (hours) are modelled as `ℚ`.
* The global object `attendanceData = {userId: {date: record}}` is an
  insertion-ordered association list, matching JS object key order.
* Each handler returns `(newData, error?, saved?)`: the mutated mapping,
  the rejection (if the command was refused) and whether
  `saveAttendanceData` was called on that path.
-/

namespace DiscordBot

/-- Status strings stored in a record: `'working'`, `'break'`, `'finished'`. -/
inductive Status where
  | working
  | «break»
  | finished
deriving DecidableEq, Repr

/-- One element of `record.breaks` (see `handleBreak` / `handleReturn` in
`src/bot.js`): `{start, report, end?, duration?, returnReport?}`. -/
structure BreakInterval where
  start : Int
  report : Option String
  «end» : Option Int
  duration : Option Int
  returnReport : Option String
deriving DecidableEq, Repr

/-- The `reports` sub-object of a record (`{checkIn, checkOut?}`). -/
structure Reports where
  checkIn : Option String
  checkOut : Option String
deriving DecidableEq, Repr

/-- One attendance record (`attendanceData[userId][today]` in `src/bot.js`). -/
structure AttendanceRecord where
  username : String
  start : Option Int
  status : Status
  breaks : List BreakInterval
  reports : Option Reports
  «end» : Option Int
  totalHours : Option String
  totalBreakMinutes : Option Int
deriving DecidableEq, Repr

/-- The in-memory mapping `attendanceData`, keyed by user id then by day. -/
abbrev AttendanceData : Type :=
  List (String × List (String × AttendanceRecord))

/-- Property lookup on a JS-object-as-association-list. -/
def findU {α : Type} : List (String × α) → String → Option α
  | [], _ => none
  | (k, v) :: rest, key => if k = key then some v else findU rest key

/-- Property assignment on a JS-object-as-association-list: overwrite in
place if the key exists, append otherwise (JS key-insertion order). -/
def setU {α : Type} : List (String × α) → String → α → List (String × α)
  | [], key, v => [(key, v)]
  | (k, w) :: rest, key, v =>
    if k = key then (k, v) :: rest else (k, w) :: setU rest key v

/-- Reading `attendanceData[userId][today]` (absent at either level gives
`undefined`, modelled as `none`). -/
def lookup2 (d : AttendanceData) (u t : String) : Option AttendanceRecord :=
  match findU d u with
  | some m => findU m t
  | none => none

/-- Writing `attendanceData[userId][today] = r` (creating the user object
first when needed, as `handleStart` does with `attendanceData[userId] = {}`). -/
def setRec (d : AttendanceData) (u t : String) (r : AttendanceRecord) :
    AttendanceData :=
  match findU d u with
  | some m => setU d u (setU m t r)
  | none => d ++ [(u, [(t, r)])]

/-- The rejection replies the handlers can produce. -/
inductive AttErr where
  | alreadyCheckedIn
  | notCheckedIn
  | alreadyOnBreak
  | notOnBreak
  | alreadyFinished
deriving DecidableEq, Repr

/-- JS `Math.round`: nearest integer, ties toward positive infinity. -/
def jsRound (q : ℚ) : Int := ⌊q + 1 / 2⌋

/-- Left-pad a sub-hundred number to two digits. -/
def twoDigitString (m : Nat) : String :=
  if m < 10 then "0" ++ toString m else toString m

/-- JS `Number.prototype.toFixed(2)`: sign, then the integer nearest to
`|x| * 100` (ties take the larger integer) split two digits from the right. -/
def toFixed2 (x : ℚ) : String :=
  let sgn := if x < 0 then "-" else ""
  let n : Nat := (⌊|x| * 100 + 1 / 2⌋ : Int).toNat
  sgn ++ toString (n / 100) ++ "." ++ twoDigitString (n % 100)

/-- The record created by `handleStart` in `src/bot.js` (empty report
strings are falsy in JS, hence `report || null`). -/
def newRecord (username : String) (now : Int) (report : String) :
    AttendanceRecord :=
  { username := username
    start := some now
    status := .working
    breaks := []
    reports := some { checkIn := if report = "" then none else some report
                      checkOut := none }
    «end» := none
    totalHours := none
    totalBreakMinutes := none }

/-- Closing a break at time `now`: sets `end` and
`duration = Math.round((now - start) / (1000 * 60))`. -/
def closedBreak (b : BreakInterval) (now : Int) : BreakInterval :=
  { b with «end» := some now
           duration := some (jsRound (((now - b.start : Int) : ℚ) / (1000 * 60))) }

/-- Model of `handleStart` (lines 312-361 of `src/bot.js`). The
`attendanceData[userId] = {}` initialisation is folded into `setRec`; on the
rejection path the user object necessarily already existed, so the mapping
is returned unchanged, exactly as in the source. -/
def handleStart (d : AttendanceData) (u username today : String) (now : Int)
    (report : String) : AttendanceData × Option AttErr × Bool :=
  match lookup2 d u today with
  | some r =>
    if r.start.isSome then (d, some .alreadyCheckedIn, false)
    else (setRec d u today (newRecord username now report), none, true)
  | none => (setRec d u today (newRecord username now report), none, true)

/-- Model of `handleBreak` (lines 364-408 of `src/bot.js`). -/
def handleBreak (d : AttendanceData) (u today : String) (now : Int)
    (report : String) : AttendanceData × Option AttErr × Bool :=
  match lookup2 d u today with
  | none => (d, some .notCheckedIn, false)
  | some r =>
    if r.start.isNone then (d, some .notCheckedIn, false)
    else if r.status = .«break» then (d, some .alreadyOnBreak, false)
    else if r.status = .finished then (d, some .alreadyFinished, false)
    else
      (setRec d u today
        { r with
          breaks := r.breaks ++
            [{ start := now
               report := if report = "" then none else some report
               «end» := none
               duration := none
               returnReport := none }]
          status := .«break» }, none, true)

/-- The record mutation of an accepted `handleReturn`:
`currentBreak = breaks[breaks.length - 1]` is closed only when it exists and
has no `end`; the status becomes `'working'` in every accepted case. -/
def returnRecord (r : AttendanceRecord) (now : Int) (report : String) :
    AttendanceRecord :=
  match r.breaks.getLast? with
  | some b =>
    if b.«end».isNone then
      { r with
        breaks := r.breaks.dropLast ++
          [{ closedBreak b now with
             returnReport := if report = "" then b.returnReport
                             else some report }]
        status := .working }
    else { r with status := .working }
  | none => { r with status := .working }

/-- Model of `handleReturn` (lines 411-454 of `src/bot.js`). -/
def handleReturn (d : AttendanceData) (u today : String) (now : Int)
    (report : String) : AttendanceData × Option AttErr × Bool :=
  match lookup2 d u today with
  | none => (d, some .notOnBreak, false)
  | some r =>
    if r.status ≠ .«break» then (d, some .notOnBreak, false)
    else (setRec d u today (returnRecord r now report), none, true)

/-- The break list after the auto-close step of `handleOff` (lines 471-479
of `src/bot.js`): while on break, the last interval is closed with the
check-out timestamp when it is still open. -/
def offBreaks (r : AttendanceRecord) (now : Int) : List BreakInterval :=
  if r.status = .«break» then
    match r.breaks.getLast? with
    | some b =>
      if b.«end».isNone then r.breaks.dropLast ++ [closedBreak b now]
      else r.breaks
    | none => r.breaks
  else r.breaks

/-- The accumulation of `totalBreakTime` in `handleOff`: JS
`if (breakPeriod.duration)` skips both missing and zero durations. -/
def totalBreakOf (bs : List BreakInterval) : Int :=
  bs.foldl
    (fun acc b =>
      match b.duration with
      | some dur => if dur = 0 then acc else acc + dur
      | none => acc) 0

/-- The `workTime` computed by `handleOff`:
`(now - start) / (1000 * 60 * 60) - totalBreakTime / 60`. -/
def offWorkTime (startMs now totalBreakTime : Int) : ℚ :=
  ((now - startMs : Int) : ℚ) / (1000 * 60 * 60) - (totalBreakTime : ℚ) / 60

/-- The record mutation of an accepted `handleOff`: auto-close the open
break, stamp `end`, store the check-out report and the derived totals. -/
def offRecord (r : AttendanceRecord) (startMs now : Int) (report : String) :
    AttendanceRecord :=
  { r with
    breaks := offBreaks r now
    «end» := some now
    status := .finished
    reports :=
      if report = "" then r.reports
      else some { checkIn := match r.reports with
                             | some rp => rp.checkIn
                             | none => none
                  checkOut := some report }
    totalHours :=
      some (toFixed2 (offWorkTime startMs now (totalBreakOf (offBreaks r now))))
    totalBreakMinutes := some (totalBreakOf (offBreaks r now)) }

/-- Model of `handleOff` (lines 457-531 of `src/bot.js`). -/
def handleOff (d : AttendanceData) (u today : String) (now : Int)
    (report : String) : AttendanceData × Option AttErr × Bool :=
  match lookup2 d u today with
  | none => (d, some .notCheckedIn, false)
  | some r =>
    match r.start with
    | none => (d, some .notCheckedIn, false)
    | some startMs =>
      if r.status = .finished then (d, some .alreadyFinished, false)
      else (setRec d u today (offRecord r startMs now report), none, true)

/-- The four lifecycle commands of the router. -/
inductive Cmd where
  | start
  | «break»
  | «return»
  | off
deriving DecidableEq, Repr

/-- Dispatch of one routed command (the `switch` in the `messageCreate`
listener of `src/bot.js`). -/
def applyCommand (d : AttendanceData) (u username today : String) (now : Int)
    (cmd : Cmd) (report : String) : AttendanceData × Option AttErr × Bool :=
  match cmd with
  | .start => handleStart d u username today now report
  | .«break» => handleBreak d u today now report
  | .«return» => handleReturn d u today now report
  | .off => handleOff d u today now report

/-- One routed lifecycle event. -/
structure Event where
  userId : String
  username : String
  today : String
  now : Int
  cmd : Cmd
  report : String

/-- Folding a sequence of routed events over the mapping. -/
def runEvents (d : AttendanceData) : List Event → AttendanceData
  | [] => d
  | e :: es =>
    runEvents (applyCommand d e.userId e.username e.today e.now e.cmd e.report).1 es

/-- The keyword table of `checkForAttendanceCommand` (lines 150-155 of
`src/bot.js`), in `Object.entries` insertion order. -/
def attendanceCommands : List (String × Cmd) :=
  [("出勤", .start), ("休憩", .«break»), ("再開", .«return»), ("退勤", .off)]

/-- The result object of `checkForAttendanceCommand`. -/
structure CmdInfo where
  command : Cmd
  keyword : String
  additionalText : String
deriving DecidableEq, Repr

/-- JS `String.prototype.includes` on character lists. -/
def charsInclude (pat : List Char) : List Char → Bool
  | [] => pat.isEmpty
  | c :: rest => pat.isPrefixOf (c :: rest) || charsInclude pat rest

/-- JS `String.prototype.replace` with a plain-string pattern: remove the
first occurrence only. -/
def charsReplaceFirst (pat : List Char) : List Char → List Char
  | [] => []
  | c :: rest =>
    if pat.isPrefixOf (c :: rest) then (c :: rest).drop pat.length
    else c :: charsReplaceFirst pat rest

/-- JS `content.includes(keyword)`. -/
def strIncludes (s pat : String) : Bool :=
  charsInclude pat.data s.data

/-- JS `content.replace(keyword, '')`. -/
def strReplaceFirst (s pat : String) : String :=
  String.mk (charsReplaceFirst pat.data s.data)

/-- The code points stripped by JS `String.prototype.trim`: ECMAScript
WhiteSpace (TAB, VT, FF, SP, NBSP, ZWNBSP and the Unicode space
separators U+1680, U+2000-U+200A, U+202F, U+205F, U+3000) together with
LineTerminator (LF, CR, LS, PS). In particular the ideographic space
U+3000 typed by Japanese IMEs is stripped. -/
def jsWhitespace (c : Char) : Bool :=
  c.val = 0x09 || c.val = 0x0A || c.val = 0x0B || c.val = 0x0C ||
  c.val = 0x0D || c.val = 0x20 || c.val = 0xA0 || c.val = 0x1680 ||
  (0x2000 ≤ c.val && c.val ≤ 0x200A) ||
  c.val = 0x2028 || c.val = 0x2029 || c.val = 0x202F || c.val = 0x205F ||
  c.val = 0x3000 || c.val = 0xFEFF

/-- JS `String.prototype.trim`: strip leading and trailing ECMAScript
whitespace. -/
def jsTrim (s : String) : String :=
  String.mk
    (((s.data.dropWhile jsWhitespace).reverse.dropWhile
      jsWhitespace).reverse)

/-- The `for (const [keyword, command] of Object.entries(...))` loop body of
`checkForAttendanceCommand`. -/
def checkLoop (content : String) : List (String × Cmd) → Option CmdInfo
  | [] => none
  | (keyword, command) :: rest =>
    if strIncludes content keyword then
      some { command := command, keyword := keyword,
             additionalText := jsTrim (strReplaceFirst content keyword) }
    else checkLoop content rest

/-- Model of `checkForAttendanceCommand` (lines 149-172 of `src/bot.js`). -/
def checkForAttendanceCommand (content : String) : Option CmdInfo :=
  checkLoop content attendanceCommands

/-- JSON values, the image of `JSON.stringify` / the domain of `JSON.parse`
(`saveAttendanceData` / `loadAttendanceData`, lines 175-194 of
`src/bot.js`). The textual layer of `JSON.stringify`/`JSON.parse` is an
injective encoding of these trees and is not modelled further. -/
inductive Json where
  | null
  | str (s : String)
  | num (n : Int)
  | arr (elems : List Json)
  | obj (fields : List (String × Json))

/-- JS `report || null` serialisation of an optional string field. -/
def encodeOptStr : Option String → Json
  | none => .null
  | some s => .str s

/-- A JSON object field that is present exactly when the JS property was
assigned (JSON.stringify omits absent properties). -/
def optField (key : String) : Option Json → List (String × Json)
  | none => []
  | some j => [(key, j)]

/-- Serialisation of one break interval, in property-insertion order. -/
def encodeBreak (b : BreakInterval) : Json :=
  .obj ([("start", Json.num b.start), ("report", encodeOptStr b.report)] ++
    optField "end" (b.«end».map Json.num) ++
    optField "duration" (b.duration.map Json.num) ++
    optField "returnReport" (b.returnReport.map Json.str))

/-- Serialisation of the status strings. -/
def encodeStatus : Status → Json
  | .working => .str "working"
  | .«break» => .str "break"
  | .finished => .str "finished"

/-- Serialisation of the `reports` object (`checkIn` is always assigned,
possibly `null`; `checkOut` only when a check-out report was given). -/
def encodeReports (rp : Reports) : Json :=
  .obj ([("checkIn", encodeOptStr rp.checkIn)] ++
    optField "checkOut" (rp.checkOut.map Json.str))

/-- Serialisation of one attendance record. -/
def encodeRecord (r : AttendanceRecord) : Json :=
  .obj ([("username", Json.str r.username)] ++
    optField "start" (r.start.map Json.num) ++
    [("status", encodeStatus r.status),
     ("breaks", Json.arr (r.breaks.map encodeBreak))] ++
    optField "reports" (r.reports.map encodeReports) ++
    optField "end" (r.«end».map Json.num) ++
    optField "totalHours" (r.totalHours.map Json.str) ++
    optField "totalBreakMinutes" (r.totalBreakMinutes.map Json.num))

/-- Serialisation of the whole mapping: model of `saveAttendanceData`'s
`JSON.stringify(attendanceData)`. -/
def encodeAttendanceData (d : AttendanceData) : Json :=
  .obj (d.map (fun p =>
    (p.1, Json.obj (p.2.map (fun q => (q.1, encodeRecord q.2))))))

/-- Reading back an optional string property. -/
def asStr : Option Json → Option String
  | some (.str s) => some s
  | _ => none

/-- Reading back an optional numeric property. -/
def asNum : Option Json → Option Int
  | some (.num n) => some n
  | _ => none

/-- Deserialisation of one break interval. -/
def decodeBreak : Json → Option BreakInterval
  | .obj fs =>
    match asNum (findU fs "start") with
    | some st =>
      some { start := st
             report := asStr (findU fs "report")
             «end» := asNum (findU fs "end")
             duration := asNum (findU fs "duration")
             returnReport := asStr (findU fs "returnReport") }
    | none => none
  | _ => none

/-- Deserialisation of a status string. -/
def decodeStatus : Option Json → Option Status
  | some (.str "working") => some .working
  | some (.str "break") => some .«break»
  | some (.str "finished") => some .finished
  | _ => none

/-- Deserialisation of the `reports` object. -/
def decodeReports : Option Json → Option Reports
  | some (.obj g) =>
    some { checkIn := asStr (findU g "checkIn")
           checkOut := asStr (findU g "checkOut") }
  | _ => none

/-- Deserialisation of one attendance record. -/
def decodeRecord : Json → Option AttendanceRecord
  | .obj fs =>
    match findU fs "username", decodeStatus (findU fs "status"),
          findU fs "breaks" with
    | some (.str un), some st, some (.arr bl) =>
      match bl.mapM decodeBreak with
      | some bs =>
        some { username := un
               start := asNum (findU fs "start")
               status := st
               breaks := bs
               reports := decodeReports (findU fs "reports")
               «end» := asNum (findU fs "end")
               totalHours := asStr (findU fs "totalHours")
               totalBreakMinutes := asNum (findU fs "totalBreakMinutes") }
      | none => none
    | _, _, _ => none
  | _ => none

/-- Deserialisation of one user's day map. -/
def decodeUserDays : Json → Option (List (String × AttendanceRecord)) :=
  fun j =>
    match j with
    | .obj fs => fs.mapM (fun p => (decodeRecord p.2).map (fun r => (p.1, r)))
    | _ => none

/-- Deserialisation of the whole mapping: model of `loadAttendanceData`'s
reading of the parsed JSON. -/
def decodeAttendanceData : Json → Option AttendanceData :=
  fun j =>
    match j with
    | .obj fs => fs.mapM (fun p => (decodeUserDays p.2).map (fun m => (p.1, m)))
    | _ => none

/-- Model of `saveAttendanceData` (lines 187-194): the JSON tree written to
`attendance.json`. -/
def saveAttendanceData (d : AttendanceData) : Json :=
  encodeAttendanceData d

/-- Model of `loadAttendanceData` (lines 175-184): `none` stands for a
missing or unparsable file, which yields the empty mapping. -/
def loadAttendanceData (j : Option Json) : AttendanceData :=
  match j with
  | some j' => (decodeAttendanceData j').getD []
  | none => []

/-- Sum of the stored `durationMinutes` of the closed breaks of a list
(open breaks have no `duration` and are skipped by `filterMap`). -/
def sumDur (bs : List BreakInterval) : Int :=
  (bs.filterMap (fun b => b.duration)).sum

/-- The open break pushed by StartBreak at 12:00 in the spec scenario. -/
def scBreakOpen : BreakInterval :=
  { start := 43200000, report := none, «end» := none, duration := none,
    returnReport := none }

/-- The same break closed by Resume at 12:30: 30 rounded minutes. -/
def scBreakClosed : BreakInterval :=
  { start := 43200000, report := none, «end» := some 45000000,
    duration := some 30, returnReport := none }

/-- Scenario record right after CheckIn at 09:00. -/
def scRec1 : AttendanceRecord :=
  newRecord "alice" 32400000 ""

/-- Scenario record after StartBreak at 12:00. -/
def scRec2 : AttendanceRecord :=
  { scRec1 with breaks := [scBreakOpen], status := .«break» }

/-- Scenario record after Resume at 12:30. -/
def scRec3 : AttendanceRecord :=
  { scRec2 with breaks := [scBreakClosed], status := .working }

/-- Scenario record after CheckOut at 18:00: 30 break minutes and
8.50 work hours. -/
def scRec4 : AttendanceRecord :=
  { scRec3 with
    status := .finished
    «end» := some 64800000
    totalHours := some "8.50"
    totalBreakMinutes := some 30 }

/-- Scenario mapping after CheckIn. -/
def scD1 : AttendanceData := [("u1", [("2024-01-15", scRec1)])]

/-- Scenario mapping after StartBreak. -/
def scD2 : AttendanceData := [("u1", [("2024-01-15", scRec2)])]

/-- Scenario mapping after Resume. -/
def scD3 : AttendanceData := [("u1", [("2024-01-15", scRec3)])]

/-- Scenario mapping after CheckOut. -/
def scD4 : AttendanceData := [("u1", [("2024-01-15", scRec4)])]

/-- The spec scenario: CheckIn 09:00, StartBreak 12:00, Resume 12:30,
CheckOut 18:00 (millisecond offsets on day 2024-01-15). -/
def scEvents : List Event :=
  [⟨"u1", "alice", "2024-01-15", 32400000, .start, ""⟩,
   ⟨"u1", "alice", "2024-01-15", 43200000, .«break», ""⟩,
   ⟨"u1", "alice", "2024-01-15", 45000000, .«return», ""⟩,
   ⟨"u1", "alice", "2024-01-15", 64800000, .off, ""⟩]

/-- A finished record: checked in at 0, checked out at 3600000 (one hour). -/
def finishedRec : AttendanceRecord :=
  offRecord (newRecord "alice" 0 "") 0 3600000 ""

/-- A mapping holding only `finishedRec`. -/
def finishedData : AttendanceData :=
  [("u1", [("2024-01-15", finishedRec)])]

/-- Structural invariant relating a record's status and break list:
all break intervals except possibly the last are closed, a record that is
not on break has only closed intervals, `end` and `duration` are set
together, and a record on break ends with an open interval. -/
def RecInvOn (st : Status) (bs : List BreakInterval) : Prop :=
  (∀ b ∈ bs.dropLast, b.«end».isSome = true) ∧
  (st ≠ .«break» → ∀ b ∈ bs, b.«end».isSome = true) ∧
  (∀ b ∈ bs, b.«end».isSome = b.duration.isSome) ∧
  (st = .«break» → (bs.getLast?).map (fun b => b.«end») = some none)

instance (st : Status) (bs : List BreakInterval) : Decidable (RecInvOn st bs) := by
  unfold RecInvOn
  infer_instance

/-- Structural invariant of a record maintained by the four handlers. -/
def RecInv (r : AttendanceRecord) : Prop :=
  RecInvOn r.status r.breaks

instance (r : AttendanceRecord) : Decidable (RecInv r) := by
  unfold RecInv
  infer_instance

/-- Invariant of the whole mapping: every stored record satisfies `RecInv`. -/
def DataInv (d : AttendanceData) : Prop :=
  ∀ u t r, lookup2 d u t = some r → RecInv r

theorem findU_setU {α : Type} (l : List (String × α)) (k : String) (v : α)
    (k' : String) :
    findU (setU l k v) k' = if k = k' then some v else findU l k' := by
  induction l with
  | nil => simp [findU, setU]
  | cons p rest ih =>
    obtain ⟨a, w⟩ := p
    by_cases hak : a = k
    · subst hak
      by_cases h : a = k' <;> simp [findU, setU, h]
    · by_cases h : a = k'
      · subst h
        have hk : ¬k = a := fun hh => hak hh.symm
        simp [findU, setU, hak, hk]
      · simp [findU, setU, hak, h, ih]

theorem findU_append {α : Type} (l l' : List (String × α)) (k : String) :
    findU (l ++ l') k =
      match findU l k with
      | some v => some v
      | none => findU l' k := by
  induction l with
  | nil => simp [findU]
  | cons p rest ih =>
    obtain ⟨a, w⟩ := p
    by_cases h : a = k <;> simp [findU, h, ih]

theorem lookup2_setRec (d : AttendanceData) (u t : String)
    (r : AttendanceRecord) (u' t' : String) :
    lookup2 (setRec d u t r) u' t' =
      if u = u' then (if t = t' then some r else lookup2 d u t')
      else lookup2 d u' t' := by
  unfold setRec lookup2
  cases hm : findU d u with
  | some m =>
    rw [findU_setU]
    by_cases hu : u = u'
    · subst hu
      simp [hm, findU_setU]
    · simp [hu]
  | none =>
    rw [findU_append]
    by_cases hu : u = u'
    · subst hu
      simp [hm, findU]
    · have hu' : ¬u' = u := fun hh => hu hh.symm
      simp only [if_neg hu]
      cases h' : findU d u' with
      | some m' => simp [h']
      | none => simp [h', findU, hu', hu]

theorem dataInv_setRec {d : AttendanceData} {r : AttendanceRecord}
    (u t : String) (hd : DataInv d) (hr : RecInv r) :
    DataInv (setRec d u t r) := by
  intro u' t' r' h
  rw [lookup2_setRec] at h
  by_cases hu : u = u'
  · by_cases ht : t = t'
    · simp [hu, ht] at h
      exact h ▸ hr
    · simp [hu, ht] at h
      exact hd u' t' r' h
  · simp [hu] at h
    exact hd u' t' r' h

theorem forall_mem_of_dropLast_getLast {P : BreakInterval → Prop}
    {bs : List BreakInterval} (h1 : ∀ b ∈ bs.dropLast, P b)
    (h2 : ∀ b, bs.getLast? = some b → P b) : ∀ b ∈ bs, P b := by
  rcases List.eq_nil_or_concat bs with rfl | ⟨l, a, rfl⟩
  · simp
  · intro b hb
    simp only [List.concat_eq_append] at h1 h2 hb
    rw [List.dropLast_concat] at h1
    rcases List.mem_append.1 hb with h | h
    · exact h1 b h
    · rw [List.mem_singleton] at h
      subst h
      exact h2 b (List.getLast?_concat l)

theorem recInvOn_nil : RecInvOn .working [] := by
  refine ⟨by simp, by simp, by simp, ?_⟩
  intro h
  exact absurd h (by simp)

theorem recInvOn_push {st : Status} {bs : List BreakInterval}
    (hInv : RecInvOn st bs) (hst : st ≠ .«break») (b₀ : BreakInterval)
    (he : b₀.«end» = none) (hd : b₀.duration = none) :
    RecInvOn .«break» (bs ++ [b₀]) := by
  obtain ⟨_, B, C, _⟩ := hInv
  have hall := B hst
  refine ⟨?_, ?_, ?_, ?_⟩
  · rw [List.dropLast_concat]
    exact hall
  · intro hc
    exact absurd rfl hc
  · intro b hb
    rcases List.mem_append.1 hb with h | h
    · exact C b h
    · rw [List.mem_singleton] at h
      subst h
      rw [he, hd]
  · intro _
    rw [List.getLast?_concat, Option.map_some', he]

theorem recInvOn_close {st st' : Status} {bs : List BreakInterval}
    (hInv : RecInvOn st bs) (b' : BreakInterval)
    (he : b'.«end».isSome = true) (hd : b'.duration.isSome = true)
    (hst' : st' ≠ .«break») :
    RecInvOn st' (bs.dropLast ++ [b']) := by
  obtain ⟨A, _, C, _⟩ := hInv
  refine ⟨?_, ?_, ?_, ?_⟩
  · rw [List.dropLast_concat]
    exact A
  · intro _ b hb
    rcases List.mem_append.1 hb with h | h
    · exact A b h
    · rw [List.mem_singleton] at h
      subst h
      exact he
  · intro b hb
    rcases List.mem_append.1 hb with h | h
    · exact C b (List.dropLast_subset bs h)
    · rw [List.mem_singleton] at h
      subst h
      rw [he, hd]
  · intro h
    exact absurd h hst'

theorem recInvOn_statusChange {st st' : Status} {bs : List BreakInterval}
    (hInv : RecInvOn st bs) (hst : st ≠ .«break») (hst' : st' ≠ .«break») :
    RecInvOn st' bs := by
  obtain ⟨A, B, C, _⟩ := hInv
  exact ⟨A, fun _ => B hst, C, fun h => absurd h hst'⟩

theorem recInvOn_offBreaks {r : AttendanceRecord} (hInv : RecInv r)
    (now : Int) : RecInvOn .finished (offBreaks r now) := by
  unfold offBreaks
  by_cases hb : r.status = .«break»
  · obtain ⟨A, B, C, D⟩ := hInv
    have hD := D hb
    cases hL : r.breaks.getLast? with
    | none =>
      rw [hL] at hD
      simp at hD
    | some b =>
      rw [hL] at hD
      simp only [Option.map_some', Option.some.injEq] at hD
      simp only [hb, if_true, hL, hD, Option.isNone_none, if_pos]
      exact recInvOn_close ⟨A, B, C, D⟩ (closedBreak b now) rfl rfl (by decide)
  · simp only [hb, if_false]
    exact recInvOn_statusChange hInv hb (by decide)

theorem recInv_returnRecord {r : AttendanceRecord} (hInv : RecInv r)
    (now : Int) (report : String) : RecInv (returnRecord r now report) := by
  obtain ⟨A, B, C, D⟩ := hInv
  unfold returnRecord
  cases hL : r.breaks.getLast? with
  | none =>
    have hbs : r.breaks = [] := List.getLast?_eq_none_iff.mp hL
    show RecInvOn .working r.breaks
    rw [hbs]
    exact recInvOn_nil
  | some b =>
    dsimp only
    by_cases hbe : b.«end».isNone = true
    · rw [if_pos hbe]
      show RecInvOn .working _
      exact recInvOn_close ⟨A, B, C, D⟩ _ rfl rfl (by decide)
    · rw [if_neg hbe]
      show RecInvOn .working r.breaks
      have hcl : ∀ b' ∈ r.breaks, b'.«end».isSome = true := by
        refine forall_mem_of_dropLast_getLast A ?_
        intro b' hb'
        rw [hL] at hb'
        have hbb : b = b' := by injection hb'
        subst hbb
        cases hE : b.«end» with
        | none =>
          rw [hE] at hbe
          simp at hbe
        | some v => rfl
      exact ⟨A, fun _ => hcl, C, fun h => nomatch h⟩

theorem dataInv_handleStart (d : AttendanceData) (u username today : String)
    (now : Int) (report : String) (hd : DataInv d) :
    DataInv (handleStart d u username today now report).1 := by
  unfold handleStart
  cases h : lookup2 d u today with
  | none => exact dataInv_setRec u today hd recInvOn_nil
  | some r =>
    dsimp only
    by_cases h1 : r.start.isSome = true
    · rw [if_pos h1]
      exact hd
    · rw [if_neg h1]
      exact dataInv_setRec u today hd recInvOn_nil

theorem dataInv_handleBreak (d : AttendanceData) (u today : String)
    (now : Int) (report : String) (hd : DataInv d) :
    DataInv (handleBreak d u today now report).1 := by
  unfold handleBreak
  cases h : lookup2 d u today with
  | none => exact hd
  | some r =>
    have hr := hd u today r h
    dsimp only
    by_cases h1 : r.start.isNone = true
    · rw [if_pos h1]
      exact hd
    · rw [if_neg h1]
      by_cases h2 : r.status = .«break»
      · rw [if_pos h2]
        exact hd
      · rw [if_neg h2]
        by_cases h3 : r.status = .finished
        · rw [if_pos h3]
          exact hd
        · rw [if_neg h3]
          exact dataInv_setRec u today hd (recInvOn_push hr h2 _ rfl rfl)

theorem dataInv_handleReturn (d : AttendanceData) (u today : String)
    (now : Int) (report : String) (hd : DataInv d) :
    DataInv (handleReturn d u today now report).1 := by
  unfold handleReturn
  cases h : lookup2 d u today with
  | none => exact hd
  | some r =>
    have hr := hd u today r h
    dsimp only
    by_cases h1 : r.status = .«break»
    · rw [if_neg (not_not_intro h1)]
      exact dataInv_setRec u today hd (recInv_returnRecord hr now report)
    · rw [if_pos h1]
      exact hd

theorem dataInv_handleOff (d : AttendanceData) (u today : String)
    (now : Int) (report : String) (hd : DataInv d) :
    DataInv (handleOff d u today now report).1 := by
  unfold handleOff
  cases h : lookup2 d u today with
  | none => exact hd
  | some r =>
    have hr := hd u today r h
    dsimp only
    cases hs : r.start with
    | none => exact hd
    | some s =>
      dsimp only
      by_cases h1 : r.status = .finished
      · rw [if_pos h1]
        exact hd
      · rw [if_neg h1]
        exact dataInv_setRec u today hd (recInvOn_offBreaks hr now)

theorem dataInv_applyCommand (d : AttendanceData) (u username today : String)
    (now : Int) (cmd : Cmd) (report : String) (hd : DataInv d) :
    DataInv (applyCommand d u username today now cmd report).1 := by
  cases cmd with
  | start => exact dataInv_handleStart d u username today now report hd
  | «break» => exact dataInv_handleBreak d u today now report hd
  | «return» => exact dataInv_handleReturn d u today now report hd
  | off => exact dataInv_handleOff d u today now report hd

theorem dataInv_runEvents (d : AttendanceData) (es : List Event)
    (hd : DataInv d) : DataInv (runEvents d es) := by
  induction es generalizing d with
  | nil => exact hd
  | cons e es ih =>
    exact ih _ (dataInv_applyCommand d e.userId e.username e.today e.now
      e.cmd e.report hd)

theorem dataInv_nil : DataInv [] := by
  intro u t r h
  simp [lookup2, findU] at h

theorem recInvOn_open_le_one {st : Status} {bs : List BreakInterval}
    (hInv : RecInvOn st bs) :
    (bs.filter (fun b => b.«end».isNone)).length ≤ 1 := by
  obtain ⟨A, _, _, _⟩ := hInv
  rcases List.eq_nil_or_concat bs with rfl | ⟨l, a, rfl⟩
  · simp
  · simp only [List.concat_eq_append] at A ⊢
    rw [List.dropLast_concat] at A
    rw [List.filter_append]
    have hl : l.filter (fun b => b.«end».isNone) = [] := by
      rw [List.filter_eq_nil_iff]
      intro b hb
      have hA := A b hb
      cases hE : b.«end» with
      | none =>
        rw [hE] at hA
        simp at hA
      | some v => simp [hE]
    rw [hl]
    simp only [List.nil_append, List.filter_cons, List.filter_nil]
    split <;> simp

/-- C2: after any sequence of applied commands starting from the empty
mapping, every stored record has at most one break interval whose `end`
field is unset. -/
theorem at_most_one_open_break (es : List Event) (u t : String)
    (r : AttendanceRecord) (h : lookup2 (runEvents [] es) u t = some r) :
    (r.breaks.filter (fun b => b.«end».isNone)).length ≤ 1 :=
  recInvOn_open_le_one (dataInv_runEvents [] es dataInv_nil u t r h)

/-- Witness for C2 at a concrete one-event history. -/
theorem at_most_one_open_break_witness :
    lookup2 (runEvents [] [⟨"u1", "alice", "2024-01-15", 32400000, Cmd.start, ""⟩])
        "u1" "2024-01-15" = some scRec1 ∧
    ((scRec1.breaks.filter (fun b => b.«end».isNone)).length ≤ 1) :=
  ⟨rfl, at_most_one_open_break
    [⟨"u1", "alice", "2024-01-15", 32400000, Cmd.start, ""⟩]
    "u1" "2024-01-15" scRec1 rfl⟩

/-- C3: CheckIn is rejected with `AlreadyCheckedIn` iff a record with its
`checkIn` timestamp set already exists for that `(userId, date)`; otherwise
it installs the freshly created record, whose status is Working. -/
theorem checkin_rejected_iff_exists (d : AttendanceData)
    (u username today : String) (now : Int) (report : String) :
    ((handleStart d u username today now report).2.1 =
        some AttErr.alreadyCheckedIn ↔
      ∃ r, lookup2 d u today = some r ∧ r.start.isSome = true) ∧
    ((¬∃ r, lookup2 d u today = some r ∧ r.start.isSome = true) →
      handleStart d u username today now report =
        (setRec d u today (newRecord username now report), none, true) ∧
      lookup2 (handleStart d u username today now report).1 u today =
        some (newRecord username now report) ∧
      (newRecord username now report).status = .working) := by
  unfold handleStart
  cases h : lookup2 d u today with
  | none =>
    dsimp only
    refine ⟨by simp, fun _ => ⟨rfl, ?_, rfl⟩⟩
    rw [lookup2_setRec]
    simp
  | some r =>
    dsimp only
    by_cases h1 : r.start.isSome = true
    · rw [if_pos h1]
      exact ⟨by simp [h1], fun hne => absurd ⟨r, rfl, h1⟩ hne⟩
    · rw [if_neg h1]
      refine ⟨by simp [h1], fun _ => ⟨rfl, ?_, rfl⟩⟩
      rw [lookup2_setRec]
      simp

/-- Witness for C3 on the empty mapping. -/
theorem checkin_rejected_iff_exists_witness :
    ((handleStart [] "u1" "alice" "2024-01-15" 32400000 "").2.1 =
        some AttErr.alreadyCheckedIn ↔
      ∃ r, lookup2 [] "u1" "2024-01-15" = some r ∧ r.start.isSome = true) ∧
    ((¬∃ r, lookup2 [] "u1" "2024-01-15" = some r ∧ r.start.isSome = true) →
      handleStart [] "u1" "alice" "2024-01-15" 32400000 "" =
        (setRec [] "u1" "2024-01-15" (newRecord "alice" 32400000 ""), none,
          true) ∧
      lookup2 (handleStart [] "u1" "alice" "2024-01-15" 32400000 "").1 "u1"
          "2024-01-15" = some (newRecord "alice" 32400000 "") ∧
      (newRecord "alice" 32400000 "").status = .working) :=
  checkin_rejected_iff_exists [] "u1" "alice" "2024-01-15" 32400000 ""

/-- Counterexample to C4 as stated: on a Finished record, CheckIn is
rejected with `AlreadyCheckedIn`, not with `AlreadyFinished` (and Resume
with `NotOnBreak`). -/
theorem finished_rejection_counterexample :
    (handleStart finishedData "u1" "alice" "2024-01-15" 7200000 "").2.1 =
      some AttErr.alreadyCheckedIn ∧
    (handleReturn finishedData "u1" "2024-01-15" 7200000 "").2.1 =
      some AttErr.notOnBreak ∧
    AttErr.alreadyCheckedIn ≠ AttErr.alreadyFinished ∧
    AttErr.notOnBreak ≠ AttErr.alreadyFinished ∧
    finishedRec.status = .finished :=
  ⟨rfl, rfl, by decide, by decide, rfl⟩

/-- C4 as amended: every lifecycle command on a Finished day is rejected
and leaves the mapping unchanged with no persistence write, but the error
is `AlreadyFinished` only for StartBreak and CheckOut; CheckIn is rejected
with `AlreadyCheckedIn` and Resume with `NotOnBreak`. -/
theorem finished_rejects_all_commands (d : AttendanceData)
    (u username today : String) (now : Int) (report : String)
    (r : AttendanceRecord) (h : lookup2 d u today = some r)
    (hst : r.status = .finished) (hs : r.start.isSome = true) :
    handleStart d u username today now report =
      (d, some AttErr.alreadyCheckedIn, false) ∧
    handleBreak d u today now report =
      (d, some AttErr.alreadyFinished, false) ∧
    handleReturn d u today now report =
      (d, some AttErr.notOnBreak, false) ∧
    handleOff d u today now report =
      (d, some AttErr.alreadyFinished, false) := by
  obtain ⟨s, hs'⟩ := Option.isSome_iff_exists.mp hs
  refine ⟨?_, ?_, ?_, ?_⟩
  · unfold handleStart
    rw [h]
    dsimp only
    rw [if_pos hs]
  · unfold handleBreak
    rw [h]
    dsimp only
    rw [if_neg (by simp [hs']), if_neg (by simp [hst]), if_pos hst]
  · unfold handleReturn
    rw [h]
    dsimp only
    rw [if_pos (by simp [hst])]
  · unfold handleOff
    rw [h]
    dsimp only
    rw [hs']
    dsimp only
    rw [if_pos hst]

/-- Witness for the amended C4 on a concrete finished record. -/
theorem finished_rejects_all_commands_witness :
    handleStart finishedData "u1" "alice" "2024-01-15" 7200000 "" =
      (finishedData, some AttErr.alreadyCheckedIn, false) ∧
    handleBreak finishedData "u1" "2024-01-15" 7200000 "" =
      (finishedData, some AttErr.alreadyFinished, false) ∧
    handleReturn finishedData "u1" "2024-01-15" 7200000 "" =
      (finishedData, some AttErr.notOnBreak, false) ∧
    handleOff finishedData "u1" "2024-01-15" 7200000 "" =
      (finishedData, some AttErr.alreadyFinished, false) :=
  finished_rejects_all_commands finishedData "u1" "alice" "2024-01-15"
    7200000 "" finishedRec rfl rfl rfl

theorem handleStart_rejected {d : AttendanceData} {u username today : String}
    {now : Int} {report : String}
    (h : (handleStart d u username today now report).2.1.isSome = true) :
    (handleStart d u username today now report).1 = d ∧
    (handleStart d u username today now report).2.2 = false := by
  unfold handleStart at *
  cases hL : lookup2 d u today with
  | none =>
    rw [hL] at h
    simp at h
  | some r =>
    rw [hL] at h
    dsimp only at h ⊢
    by_cases h1 : r.start.isSome = true
    · rw [if_pos h1]
      exact ⟨rfl, rfl⟩
    · rw [if_neg h1] at h
      simp at h

theorem handleBreak_rejected {d : AttendanceData} {u today : String}
    {now : Int} {report : String}
    (h : (handleBreak d u today now report).2.1.isSome = true) :
    (handleBreak d u today now report).1 = d ∧
    (handleBreak d u today now report).2.2 = false := by
  unfold handleBreak at *
  cases hL : lookup2 d u today with
  | none => exact ⟨rfl, rfl⟩
  | some r =>
    rw [hL] at h
    dsimp only at h ⊢
    by_cases h1 : r.start.isNone = true
    · rw [if_pos h1]
      exact ⟨rfl, rfl⟩
    · rw [if_neg h1] at h ⊢
      by_cases h2 : r.status = .«break»
      · rw [if_pos h2]
        exact ⟨rfl, rfl⟩
      · rw [if_neg h2] at h ⊢
        by_cases h3 : r.status = .finished
        · rw [if_pos h3]
          exact ⟨rfl, rfl⟩
        · rw [if_neg h3] at h
          simp at h

theorem handleReturn_rejected {d : AttendanceData} {u today : String}
    {now : Int} {report : String}
    (h : (handleReturn d u today now report).2.1.isSome = true) :
    (handleReturn d u today now report).1 = d ∧
    (handleReturn d u today now report).2.2 = false := by
  unfold handleReturn at *
  cases hL : lookup2 d u today with
  | none => exact ⟨rfl, rfl⟩
  | some r =>
    rw [hL] at h
    dsimp only at h ⊢
    by_cases h1 : r.status = .«break»
    · rw [if_neg (not_not_intro h1)] at h
      simp at h
    · rw [if_pos h1]
      exact ⟨rfl, rfl⟩

theorem handleOff_rejected {d : AttendanceData} {u today : String}
    {now : Int} {report : String}
    (h : (handleOff d u today now report).2.1.isSome = true) :
    (handleOff d u today now report).1 = d ∧
    (handleOff d u today now report).2.2 = false := by
  unfold handleOff at *
  cases hL : lookup2 d u today with
  | none => exact ⟨rfl, rfl⟩
  | some r =>
    rw [hL] at h
    dsimp only at h ⊢
    cases hs : r.start with
    | none => exact ⟨rfl, rfl⟩
    | some s =>
      rw [hs] at h
      dsimp only at h ⊢
      by_cases h1 : r.status = .finished
      · rw [if_pos h1]
        exact ⟨rfl, rfl⟩
      · rw [if_neg h1] at h
        simp at h

/-- C7: a lifecycle command that is rejected leaves the attendance mapping
unchanged and performs no persistence write; in particular StartBreak with
no record for the day is rejected with `NotCheckedIn` and creates nothing. -/
theorem rejection_mutates_nothing :
    (∀ (d : AttendanceData) (u username today : String) (now : Int)
       (cmd : Cmd) (report : String),
      (applyCommand d u username today now cmd report).2.1.isSome = true →
      (applyCommand d u username today now cmd report).1 = d ∧
      (applyCommand d u username today now cmd report).2.2 = false) ∧
    (∀ (d : AttendanceData) (u today : String) (now : Int) (report : String),
      lookup2 d u today = none →
      handleBreak d u today now report = (d, some AttErr.notCheckedIn, false)) := by
  constructor
  · intro d u username today now cmd report h
    cases cmd with
    | start => exact handleStart_rejected h
    | «break» => exact handleBreak_rejected h
    | «return» => exact handleReturn_rejected h
    | off => exact handleOff_rejected h
  · intro d u today now report h
    unfold handleBreak
    rw [h]

/-- Witness for C7: a break command against the empty mapping. -/
theorem rejection_mutates_nothing_witness :
    ((applyCommand [] "u1" "alice" "2024-01-15" 43200000 Cmd.«break» "").2.1.isSome
        = true) ∧
    (applyCommand [] "u1" "alice" "2024-01-15" 43200000 Cmd.«break» "").1 = [] ∧
    (applyCommand [] "u1" "alice" "2024-01-15" 43200000 Cmd.«break» "").2.2 =
      false ∧
    handleBreak [] "u1" "2024-01-15" 43200000 "" =
      ([], some AttErr.notCheckedIn, false) :=
  ⟨rfl,
   (rejection_mutates_nothing.1 [] "u1" "alice" "2024-01-15" 43200000
     Cmd.«break» "" rfl).1,
   (rejection_mutates_nothing.1 [] "u1" "alice" "2024-01-15" 43200000
     Cmd.«break» "" rfl).2,
   rejection_mutates_nothing.2 [] "u1" "2024-01-15" 43200000 "" rfl⟩

/-- C5: on a record with status OnBreak, Resume closes the most recent open
break interval, setting its `end` to the Resume timestamp and its duration
to `Math.round((end - start) in minutes)`, and sets the status back to
Working; on any record whose status is not OnBreak it is rejected with
`NotOnBreak`. -/
theorem resume_closes_last_open_break (d : AttendanceData) (u today : String)
    (now : Int) (report : String) (r : AttendanceRecord)
    (h : lookup2 d u today = some r) (hInv : RecInv r) :
    (r.status = .«break» →
      ∃ b, r.breaks.getLast? = some b ∧ b.«end» = none ∧
        handleReturn d u today now report =
          (setRec d u today
            { r with
              breaks := r.breaks.dropLast ++
                [{ b with
                   «end» := some now
                   duration :=
                     some (jsRound (((now - b.start : Int) : ℚ) / (1000 * 60)))
                   returnReport := if report = "" then b.returnReport
                                   else some report }]
              status := .working }, none, true)) ∧
    (r.status ≠ .«break» →
      handleReturn d u today now report = (d, some AttErr.notOnBreak, false)) := by
  constructor
  · intro hst
    obtain ⟨A, B, C, D⟩ := hInv
    have hD := D hst
    cases hL : r.breaks.getLast? with
    | none =>
      rw [hL] at hD
      simp at hD
    | some b =>
      rw [hL] at hD
      simp only [Option.map_some', Option.some.injEq] at hD
      refine ⟨b, rfl, hD, ?_⟩
      unfold handleReturn
      rw [h]
      dsimp only
      rw [if_neg (not_not_intro hst)]
      unfold returnRecord
      rw [hL]
      dsimp only
      rw [if_pos (by rw [hD]; rfl)]
      rfl
  · intro hst
    unfold handleReturn
    rw [h]
    dsimp only
    rw [if_pos hst]

/-- Witness for C5 at the scenario's on-break state. -/
theorem resume_closes_last_open_break_witness :
    lookup2 scD2 "u1" "2024-01-15" = some scRec2 ∧ RecInv scRec2 ∧
    ((scRec2.status = .«break» →
      ∃ b, scRec2.breaks.getLast? = some b ∧ b.«end» = none ∧
        handleReturn scD2 "u1" "2024-01-15" 45000000 "" =
          (setRec scD2 "u1" "2024-01-15"
            { scRec2 with
              breaks := scRec2.breaks.dropLast ++
                [{ b with
                   «end» := some 45000000
                   duration :=
                     some (jsRound (((45000000 - b.start : Int) : ℚ) / (1000 * 60)))
                   returnReport := if "" = "" then b.returnReport
                                   else some "" }]
              status := .working }, none, true)) ∧
    (scRec2.status ≠ .«break» →
      handleReturn scD2 "u1" "2024-01-15" 45000000 "" =
        (scD2, some AttErr.notOnBreak, false))) :=
  ⟨rfl, by decide,
   resume_closes_last_open_break scD2 "u1" "2024-01-15" 45000000 "" scRec2
     rfl (by decide)⟩

theorem totalBreakOf_eq_sumDur (bs : List BreakInterval) :
    totalBreakOf bs = sumDur bs := by
  have aux : ∀ (l : List BreakInterval) (acc : Int),
      List.foldl
        (fun acc b =>
          match b.duration with
          | some dur => if dur = 0 then acc else acc + dur
          | none => acc) acc l = acc + sumDur l := by
    intro l
    induction l with
    | nil =>
      intro acc
      simp [sumDur]
    | cons b tl ih =>
      intro acc
      cases hdur : b.duration with
      | none => simp [hdur, ih, sumDur, List.filterMap_cons]
      | some dur =>
        by_cases hz : dur = 0
        · simp [hdur, hz, ih, sumDur, List.filterMap_cons]
        · simp only [List.foldl_cons, hdur, if_neg hz, ih, sumDur,
            List.filterMap_cons, List.sum_cons]
          omega
  simpa [totalBreakOf] using aux bs 0

/-- C6: CheckOut on a record with status OnBreak first closes the open
break with the check-out timestamp (rounding its duration in minutes as
Resume does) before finalizing, and that closed break's duration is a
summand of the stored `totalBreakMinutes`. -/
theorem checkout_on_break_closes_break (d : AttendanceData)
    (u today : String) (now : Int) (report : String) (r : AttendanceRecord)
    (s : Int) (h : lookup2 d u today = some r) (hInv : RecInv r)
    (hs : r.start = some s) (hst : r.status = .«break») :
    ∃ b, r.breaks.getLast? = some b ∧ b.«end» = none ∧
      handleOff d u today now report =
        (setRec d u today (offRecord r s now report), none, true) ∧
      (offRecord r s now report).status = .finished ∧
      (offRecord r s now report).breaks =
        r.breaks.dropLast ++ [closedBreak b now] ∧
      (closedBreak b now).«end» = some now ∧
      (closedBreak b now).duration =
        some (jsRound (((now - b.start : Int) : ℚ) / (1000 * 60))) ∧
      (offRecord r s now report).totalBreakMinutes =
        some (sumDur r.breaks.dropLast +
          jsRound (((now - b.start : Int) : ℚ) / (1000 * 60))) := by
  obtain ⟨A, B, C, D⟩ := hInv
  have hD := D hst
  cases hL : r.breaks.getLast? with
  | none =>
    rw [hL] at hD
    simp at hD
  | some b =>
    rw [hL] at hD
    simp only [Option.map_some', Option.some.injEq] at hD
    have hOB : offBreaks r now = r.breaks.dropLast ++ [closedBreak b now] := by
      unfold offBreaks
      rw [if_pos hst, hL]
      dsimp only
      rw [if_pos (by rw [hD]; rfl)]
    have hTB : totalBreakOf (offBreaks r now) =
        sumDur r.breaks.dropLast +
          jsRound (((now - b.start : Int) : ℚ) / (1000 * 60)) := by
      rw [hOB, totalBreakOf_eq_sumDur]
      unfold sumDur
      rw [List.filterMap_append]
      simp [closedBreak, List.filterMap_cons]
    refine ⟨b, rfl, hD, ?_, rfl, hOB, rfl, rfl, ?_⟩
    · unfold handleOff
      rw [h]
      dsimp only
      rw [hs]
      dsimp only
      rw [if_neg (by rw [hst]; decide)]
    · show some (totalBreakOf (offBreaks r now)) = _
      rw [hTB]

/-- Witness for C6: check-out at 18:00 while the 12:00 break is open. -/
theorem checkout_on_break_closes_break_witness :
    lookup2 scD2 "u1" "2024-01-15" = some scRec2 ∧ RecInv scRec2 ∧
    scRec2.start = some 32400000 ∧ scRec2.status = .«break» ∧
    (∃ b, scRec2.breaks.getLast? = some b ∧ b.«end» = none ∧
      handleOff scD2 "u1" "2024-01-15" 64800000 "" =
        (setRec scD2 "u1" "2024-01-15"
          (offRecord scRec2 32400000 64800000 ""), none, true) ∧
      (offRecord scRec2 32400000 64800000 "").status = .finished ∧
      (offRecord scRec2 32400000 64800000 "").breaks =
        scRec2.breaks.dropLast ++ [closedBreak b 64800000] ∧
      (closedBreak b 64800000).«end» = some 64800000 ∧
      (closedBreak b 64800000).duration =
        some (jsRound (((64800000 - b.start : Int) : ℚ) / (1000 * 60))) ∧
      (offRecord scRec2 32400000 64800000 "").totalBreakMinutes =
        some (sumDur scRec2.breaks.dropLast +
          jsRound (((64800000 - b.start : Int) : ℚ) / (1000 * 60)))) :=
  ⟨rfl, by decide, rfl, rfl,
   checkout_on_break_closes_break scD2 "u1" "2024-01-15" 64800000 "" scRec2
     32400000 rfl (by decide) rfl rfl⟩

theorem toFixed2_nonneg_eval (x : ℚ) (n : Nat) (h0 : ¬x < 0)
    (hn : (⌊x * 100 + 1 / 2⌋ : Int) = (n : Int)) :
    toFixed2 x = toString (n / 100) ++ "." ++ twoDigitString (n % 100) := by
  unfold toFixed2
  rw [if_neg h0, abs_of_nonneg (not_lt.1 h0), hn]
  simp

theorem sc_round30 :
    jsRound (((45000000 - 43200000 : Int) : ℚ) / (1000 * 60)) = 30 := by
  norm_num [jsRound]

theorem sc_step3 :
    handleReturn scD2 "u1" "2024-01-15" 45000000 "" = (scD3, none, true) := by
  have h1 : handleReturn scD2 "u1" "2024-01-15" 45000000 "" =
      (setRec scD2 "u1" "2024-01-15" (returnRecord scRec2 45000000 ""), none,
        true) := rfl
  have h2 : returnRecord scRec2 45000000 "" =
      { scRec2 with
        breaks := [{ start := 43200000
                     report := none
                     «end» := some 45000000
                     duration :=
                       some (jsRound
                         (((45000000 - 43200000 : Int) : ℚ) / (1000 * 60)))
                     returnReport := none }]
        status := .working } := rfl
  rw [h1, h2, sc_round30]
  rfl

theorem sc_workTime : offWorkTime 32400000 64800000 30 = 17 / 2 := by
  norm_num [offWorkTime]

theorem sc_toFixed : toFixed2 (17 / 2 : ℚ) = "8.50" := by
  rw [toFixed2_nonneg_eval (17 / 2) 850 (by norm_num) (by norm_num)]
  rfl

theorem sc_step4 :
    handleOff scD3 "u1" "2024-01-15" 64800000 "" = (scD4, none, true) := by
  have h1 : handleOff scD3 "u1" "2024-01-15" 64800000 "" =
      (setRec scD3 "u1" "2024-01-15" (offRecord scRec3 32400000 64800000 ""),
        none, true) := rfl
  have h2 : offRecord scRec3 32400000 64800000 "" =
      { scRec3 with
        status := .finished
        «end» := some 64800000
        totalHours := some (toFixed2 (offWorkTime 32400000 64800000 30))
        totalBreakMinutes := some 30 } := rfl
  rw [h1, h2, sc_workTime, sc_toFixed]
  rfl

/-- C1: the totals stored by CheckOut satisfy the spec arithmetic
(`totalBreakMinutes` is the sum of the closed breaks' stored rounded
durations and `totalHours` is the elapsed hours minus break hours formatted
to two decimals), and the concrete scenario CheckIn 09:00, StartBreak
12:00, Resume 12:30, CheckOut 18:00 yields break duration 30,
`totalBreakMinutes = 30` and `totalHours = "8.50"`. -/
theorem checkout_totals_arithmetic :
    (∀ (d : AttendanceData) (u today : String) (now : Int) (report : String)
       (r : AttendanceRecord) (s : Int),
      lookup2 d u today = some r → RecInv r → r.start = some s →
      r.status ≠ .finished →
      ∃ r', handleOff d u today now report =
          (setRec d u today r', none, true) ∧
        (∀ b ∈ r'.breaks, b.«end».isSome = true) ∧
        r'.totalBreakMinutes = some (sumDur r'.breaks) ∧
        r'.totalHours =
          some (toFixed2 (((now - s : Int) : ℚ) / (1000 * 60 * 60) -
            ((sumDur r'.breaks : Int) : ℚ) / 60))) ∧
    (runEvents [] scEvents = scD4 ∧
      lookup2 scD4 "u1" "2024-01-15" = some scRec4 ∧
      scRec4.breaks = [scBreakClosed] ∧
      scBreakClosed.duration = some 30 ∧
      scRec4.totalBreakMinutes = some 30 ∧
      scRec4.totalHours = some "8.50") := by
  constructor
  · intro d u today now report r s h hInv hs hstf
    refine ⟨offRecord r s now report, ?_, ?_, ?_, ?_⟩
    · unfold handleOff
      rw [h]
      dsimp only
      rw [hs]
      dsimp only
      rw [if_neg hstf]
    · exact (recInvOn_offBreaks hInv now).2.1 (by decide)
    · show some (totalBreakOf (offBreaks r now)) = _
      rw [totalBreakOf_eq_sumDur]
      rfl
    · show some (toFixed2 (offWorkTime s now (totalBreakOf (offBreaks r now))))
        = _
      rw [totalBreakOf_eq_sumDur]
      rfl
  · refine ⟨?_, rfl, rfl, rfl, rfl, rfl⟩
    show (handleOff
      (handleReturn
        (handleBreak (handleStart [] "u1" "alice" "2024-01-15" 32400000 "").1
          "u1" "2024-01-15" 43200000 "").1
        "u1" "2024-01-15" 45000000 "").1
      "u1" "2024-01-15" 64800000 "").1 = scD4
    have e2 : (handleBreak
        (handleStart [] "u1" "alice" "2024-01-15" 32400000 "").1
        "u1" "2024-01-15" 43200000 "").1 = scD2 := rfl
    rw [e2, sc_step3]
    dsimp only
    rw [sc_step4]

/-- Witness for the general clause of C1, at the scenario's on-break state. -/
theorem checkout_totals_arithmetic_witness :
    lookup2 scD2 "u1" "2024-01-15" = some scRec2 ∧ RecInv scRec2 ∧
    scRec2.start = some 32400000 ∧ scRec2.status ≠ .finished ∧
    (∃ r', handleOff scD2 "u1" "2024-01-15" 64800000 "" =
        (setRec scD2 "u1" "2024-01-15" r', none, true) ∧
      (∀ b ∈ r'.breaks, b.«end».isSome = true) ∧
      r'.totalBreakMinutes = some (sumDur r'.breaks) ∧
      r'.totalHours =
        some (toFixed2 (((64800000 - 32400000 : Int) : ℚ) / (1000 * 60 * 60) -
          ((sumDur r'.breaks : Int) : ℚ) / 60))) :=
  ⟨rfl, by decide, rfl, by decide,
   checkout_totals_arithmetic.1 scD2 "u1" "2024-01-15" 64800000 "" scRec2
     32400000 rfl (by decide) rfl (by decide)⟩

theorem twoDigitString_length : ∀ m, m < 100 → (twoDigitString m).length = 2 := by
  decide

/-- C10: after a successful CheckOut the record stores `totalHours` as the
`toFixed(2)` decimal string (always carrying exactly two fraction digits)
rather than a number, and `totalBreakMinutes` as an integer minute count;
a break whose rounded duration is zero contributes nothing to the
accumulated break total. -/
theorem stored_totals_format :
    (∀ x : ℚ, ∃ a b : String, toFixed2 x = a ++ "." ++ b ∧ b.length = 2) ∧
    (∀ (d : AttendanceData) (u today : String) (now : Int) (report : String)
       (r : AttendanceRecord) (s : Int),
      lookup2 d u today = some r → r.start = some s →
      r.status ≠ .finished →
      handleOff d u today now report =
        (setRec d u today (offRecord r s now report), none, true) ∧
      (offRecord r s now report).totalHours =
        some (toFixed2 (offWorkTime s now (totalBreakOf (offBreaks r now)))) ∧
      (offRecord r s now report).totalBreakMinutes =
        some (totalBreakOf (offBreaks r now))) ∧
    (∀ (xs ys : List BreakInterval) (b : BreakInterval),
      b.duration = some 0 →
      totalBreakOf (xs ++ b :: ys) = totalBreakOf (xs ++ ys)) := by
  refine ⟨?_, ?_, ?_⟩
  · intro x
    refine ⟨(if x < 0 then "-" else "") ++
      toString ((⌊|x| * 100 + 1 / 2⌋ : Int).toNat / 100),
      twoDigitString ((⌊|x| * 100 + 1 / 2⌋ : Int).toNat % 100), rfl, ?_⟩
    exact twoDigitString_length _ (Nat.mod_lt _ (by decide))
  · intro d u today now report r s h hs hstf
    refine ⟨?_, rfl, rfl⟩
    unfold handleOff
    rw [h]
    dsimp only
    rw [hs]
    dsimp only
    rw [if_neg hstf]
  · intro xs ys b hb
    unfold totalBreakOf
    rw [List.foldl_append, List.foldl_append]
    simp [hb]

/-- Witness for C10's conditional clauses at concrete inputs. -/
theorem stored_totals_format_witness :
    (handleOff scD2 "u1" "2024-01-15" 64800000 "" =
        (setRec scD2 "u1" "2024-01-15"
          (offRecord scRec2 32400000 64800000 ""), none, true) ∧
      (offRecord scRec2 32400000 64800000 "").totalHours =
        some (toFixed2 (offWorkTime 32400000 64800000
          (totalBreakOf (offBreaks scRec2 64800000)))) ∧
      (offRecord scRec2 32400000 64800000 "").totalBreakMinutes =
        some (totalBreakOf (offBreaks scRec2 64800000))) ∧
    totalBreakOf
        ([] ++ ({ start := 0, report := none, «end» := some 10000,
                  duration := some 0, returnReport := none } :
            BreakInterval) :: []) =
      totalBreakOf ([] ++ []) :=
  ⟨stored_totals_format.2.1 scD2 "u1" "2024-01-15" 64800000 "" scRec2
     32400000 rfl rfl (by decide),
   stored_totals_format.2.2 [] []
     { start := 0, report := none, «end» := some 10000, duration := some 0,
       returnReport := none } rfl⟩

/-- C8: the router checks the four lifecycle keywords in the fixed priority
order check-in, break, resume, check-out, returning the first whose keyword
occurs anywhere in the text, with the note being the text minus the first
occurrence of that keyword, trimmed; text containing no keyword is never a
lifecycle command. The last two conjuncts check the spec's note-extraction
scenario verbatim and the stripping of a full-width U+3000 space. -/
theorem router_priority_order (content : String) :
    (checkForAttendanceCommand content =
      if strIncludes content "出勤" = true then
        some { command := .start, keyword := "出勤",
               additionalText := jsTrim (strReplaceFirst content "出勤") }
      else if strIncludes content "休憩" = true then
        some { command := .«break», keyword := "休憩",
               additionalText := jsTrim (strReplaceFirst content "休憩") }
      else if strIncludes content "再開" = true then
        some { command := .«return», keyword := "再開",
               additionalText := jsTrim (strReplaceFirst content "再開") }
      else if strIncludes content "退勤" = true then
        some { command := .off, keyword := "退勤",
               additionalText := jsTrim (strReplaceFirst content "退勤") }
      else none) ∧
    ((strIncludes content "出勤" = false ∧ strIncludes content "休憩" = false ∧
      strIncludes content "再開" = false ∧ strIncludes content "退勤" = false) →
      checkForAttendanceCommand content = none) ∧
    checkForAttendanceCommand "出勤 today I will work on X" =
      some { command := .start, keyword := "出勤",
             additionalText := "today I will work on X" } ∧
    checkForAttendanceCommand "出勤　メモ" =
      some { command := .start, keyword := "出勤",
             additionalText := "メモ" } := by
  refine ⟨rfl, ?_, by decide, by decide⟩
  rintro ⟨h1, h2, h3, h4⟩
  simp [checkForAttendanceCommand, checkLoop, attendanceCommands, h1, h2, h3,
    h4]

/-- Witness for C8's conditional clause: keyword-free text routes nowhere. -/
theorem router_priority_order_witness :
    (strIncludes "hello" "出勤" = false ∧ strIncludes "hello" "休憩" = false ∧
     strIncludes "hello" "再開" = false ∧ strIncludes "hello" "退勤" = false) ∧
    checkForAttendanceCommand "hello" = none :=
  ⟨⟨rfl, rfl, rfl, rfl⟩,
   (router_priority_order "hello").2.1 ⟨rfl, rfl, rfl, rfl⟩⟩

theorem asStr_encodeOptStr (o : Option String) :
    asStr (some (encodeOptStr o)) = o := by
  cases o <;> rfl

theorem decodeStatus_encodeStatus (st : Status) :
    decodeStatus (some (encodeStatus st)) = some st := by
  cases st <;> rfl

theorem decodeReports_encodeReports (rp : Reports) :
    decodeReports (some (encodeReports rp)) = some rp := by
  obtain ⟨ci, co⟩ := rp
  cases ci <;> cases co <;> rfl

theorem decodeBreak_encodeBreak (b : BreakInterval) :
    decodeBreak (encodeBreak b) = some b := by
  obtain ⟨st, rep, en, dur, rr⟩ := b
  cases rep <;> cases en <;> cases dur <;> cases rr <;> rfl

theorem mapM_loop_decodeBreak (bs : List BreakInterval)
    (acc : List BreakInterval) :
    List.mapM.loop decodeBreak (bs.map encodeBreak) acc =
      some (acc.reverse ++ bs) := by
  induction bs generalizing acc with
  | nil => simp [List.mapM.loop]
  | cons b tl ih =>
    simp [List.mapM.loop, decodeBreak_encodeBreak, ih]

theorem decodeReports_none : decodeReports none = none := rfl

theorem decodeRecord_encodeRecord (r : AttendanceRecord) :
    decodeRecord (encodeRecord r) = some r := by
  obtain ⟨un, sta, st, bs, rp, en, th, tbm⟩ := r
  cases sta <;> cases rp <;> cases en <;> cases th <;> cases tbm <;>
    simp [encodeRecord, decodeRecord, optField, findU, asStr, asNum,
      encodeOptStr, decodeStatus_encodeStatus, decodeReports_none,
      decodeReports_encodeReports, List.mapM, mapM_loop_decodeBreak]

theorem mapM_loop_decodeUserDays (m : List (String × AttendanceRecord))
    (acc : List (String × AttendanceRecord)) :
    List.mapM.loop (fun p => (decodeRecord p.2).map (fun r => (p.1, r)))
      (m.map (fun q => (q.1, encodeRecord q.2))) acc =
      some (acc.reverse ++ m) := by
  induction m generalizing acc with
  | nil => simp [List.mapM.loop]
  | cons p tl ih =>
    simp [List.mapM.loop, decodeRecord_encodeRecord, ih]

theorem decodeUserDays_encode (m : List (String × AttendanceRecord)) :
    decodeUserDays (Json.obj (m.map (fun q => (q.1, encodeRecord q.2)))) =
      some m := by
  simp [decodeUserDays, List.mapM, mapM_loop_decodeUserDays]

/-- C9: serializing the attendance mapping with Save and deserializing it
with Load reproduces every record field-for-field, for any mapping (hence
for every reachable one). -/
theorem save_load_roundtrip (d : AttendanceData) :
    loadAttendanceData (some (saveAttendanceData d)) = d := by
  have hloop : ∀ (l : AttendanceData) (acc : AttendanceData),
      List.mapM.loop (fun p => (decodeUserDays p.2).map (fun m => (p.1, m)))
        (l.map (fun p =>
          (p.1, Json.obj (p.2.map (fun q => (q.1, encodeRecord q.2)))))) acc =
        some (acc.reverse ++ l) := by
    intro l
    induction l with
    | nil =>
      intro acc
      simp [List.mapM.loop]
    | cons p tl ih =>
      intro acc
      simp [List.mapM.loop, decodeUserDays_encode, ih]
  have h : decodeAttendanceData (encodeAttendanceData d) = some d := by
    simp [decodeAttendanceData, encodeAttendanceData, List.mapM, hloop]
  unfold loadAttendanceData saveAttendanceData
  dsimp only
  rw [h]
  rfl

end DiscordBot
